import Mathlib

set_option maxRecDepth 40000

/-!
Verification development for the Reddit-post-analyzer application
(single source file `app.py`).  The Python functions are shallowly
embedded as Lean definitions over explicit data; network effects are
modelled by an explicit `world` oracle mapping each HTTP request
(endpoint, header profile) to its outcome, and the language-model
client by a function from the prompt to an `Except` result.
-/

/-! ## Character and substring helpers (model of `re` operations) -/

/-- True when the character is in the regex class `[a-z0-9]`. -/
def isLowerAlnum (c : Char) : Bool :=
  (decide ('a' ≤ c) && decide (c ≤ 'z')) || (decide ('0' ≤ c) && decide (c ≤ '9'))

/-- `isPre p l` : the character list `p` occurs at the very start of `l`. -/
def isPre : List Char → List Char → Bool
  | [], _ => true
  | _ :: _, [] => false
  | a :: as, b :: bs => a == b && isPre as bs

/-- `containsSub p l` : `p` occurs somewhere inside `l` (substring test). -/
def containsSub (p : List Char) : List Char → Bool
  | [] => isPre p []
  | c :: cs => isPre p (c :: cs) || containsSub p cs

/-- Index of the first occurrence of `p` inside `l`, if any. -/
def firstOcc (p : List Char) : List Char → Option Nat
  | [] => if isPre p [] then some 0 else none
  | c :: cs => if isPre p (c :: cs) then some 0 else (firstOcc p cs).map (· + 1)

/-- Substring test at the `String` level. -/
def strContains (p s : String) : Bool := containsSub p.data s.data

/-- `re.search` driver: try the position matcher `f` at every start
position of the text, left to right, returning the first capture. -/
def searchWith (f : List Char → Option (List Char)) : List Char → Option (List Char)
  | [] => f []
  | c :: cs =>
    match f (c :: cs) with
    | some r => some r
    | none => searchWith f cs

/-! ## ID Extractor (`extract_post_id_from_url`, app.py lines 28-39)

The three regex patterns are embedded as position matchers.  For each
pattern, greedy matching of `[^/]+` followed by the literal `/` forces
the segment to be the maximal run of non-`/` characters, and the capture
group `([a-z0-9]+)` is the maximal run of lowercase alphanumerics. -/

/-- Position matcher for `reddit\.com/r/[^/]+/comments/([a-z0-9]+)`. -/
def p1At (l : List Char) : Option (List Char) :=
  if isPre "reddit.com/r/".data l then
    let rest := l.drop 13
    let seg := rest.takeWhile (fun c => !(c == '/'))
    if seg.isEmpty then none
    else
      let rest2 := rest.drop seg.length
      if isPre "/comments/".data rest2 then
        let cap := (rest2.drop 10).takeWhile isLowerAlnum
        if cap.isEmpty then none else some cap
      else none
  else none

/-- Position matcher for `redd\.it/([a-z0-9]+)`. -/
def p2At (l : List Char) : Option (List Char) :=
  if isPre "redd.it/".data l then
    let cap := (l.drop 8).takeWhile isLowerAlnum
    if cap.isEmpty then none else some cap
  else none

/-- Position matcher for `/comments/([a-z0-9]+)`. -/
def p3At (l : List Char) : Option (List Char) :=
  if isPre "/comments/".data l then
    let cap := (l.drop 10).takeWhile isLowerAlnum
    if cap.isEmpty then none else some cap
  else none

/-- `extract_post_id_from_url` (app.py 28-39): apply the three patterns
in order over the whole URL; return the first capture, else `None`. -/
def extract_post_id_from_url (url : String) : Option String :=
  match searchWith p1At url.data with
  | some r => some (String.mk r)
  | none =>
    match searchWith p2At url.data with
    | some r => some (String.mk r)
    | none =>
      match searchWith p3At url.data with
      | some r => some (String.mk r)
      | none => none

example : extract_post_id_from_url "https://www.reddit.com/r/test/comments/abc123/some_title/" = some "abc123" := by decide
example : extract_post_id_from_url "https://redd.it/abc123" = some "abc123" := by decide
example : extract_post_id_from_url "/comments/xyz789" = some "xyz789" := by decide
example : extract_post_id_from_url "https://example.org/page" = none := by decide

/-! ## Data model of the raw thread document

`data[0]["data"]["children"][0]["data"]` is the post dictionary; every
field is read with `.get(key, default)`, modelled by `Option` + `getD`.
`data[1]["data"]["children"]`, read only when `include_comments` holds
and `len(data) > 1`, is the comment listing; `CommentsSlot.malformed`
models a `data[1]` that raises on the nested access (the attempt's
generic `except` turns that into a strategy failure). -/

structure RawPost where
  title : Option String
  selftext : Option String
  score : Option Int
  num_comments : Option Int
  permalink : Option String
  subreddit : Option String
deriving DecidableEq, Repr

structure RawComment where
  kind : Option String
  body : Option String
  score : Option Int
deriving DecidableEq, Repr

inductive CommentsSlot where
  | absent
  | malformed (msg : String)
  | present (cs : List RawComment)
deriving DecidableEq, Repr

structure RawDoc where
  post : RawPost
  comments : CommentsSlot
deriving DecidableEq, Repr

/-- The dictionary returned by `get_post_by_id` on success (app.py 128-134). -/
structure Record where
  title : String
  content : String
  score : Int
  url : String
  subreddit : String
deriving DecidableEq, Repr

/-! ## Content Normalizer (app.py lines 90-127) -/

/-- The comment loop (app.py 108-121).  State: already-built section
text `acc` and `comment_count`.  A node whose `kind` is not `"t1"` is
skipped (`continue`); a surviving body is appended and counted; after
each non-skipped node the loop breaks once `comment_count >= max_comments`. -/
def commentLoop (max_comments : Nat) : List RawComment → Nat → String → String × Nat
  | [], count, acc => (acc, count)
  | c :: rest, count, acc =>
    if c.kind != some "t1" then commentLoop max_comments rest count acc
    else
      let comment_body := c.body.getD ""
      let comment_score := c.score.getD 0
      let (acc2, count2) :=
        if comment_body != "" && comment_body != "[deleted]" && comment_body != "[removed]" then
          (acc ++ "\n--- COMENTARIO " ++ toString (count + 1) ++ " (Score: " ++
            toString comment_score ++ ") ---\n" ++ comment_body ++ "\n", count + 1)
        else (acc, count)
      if count2 ≥ max_comments then (acc2, count2) else commentLoop max_comments rest count2 acc2

/-- Ghost mirror of `commentLoop`: the list of comments whose bodies the
loop appends (same branch structure, collecting instead of printing). -/
def includedReplies (max_comments : Nat) : List RawComment → Nat → List RawComment
  | [], _ => []
  | c :: rest, count =>
    if c.kind != some "t1" then includedReplies max_comments rest count
    else
      let comment_body := c.body.getD ""
      if comment_body != "" && comment_body != "[deleted]" && comment_body != "[removed]" then
        c :: (if count + 1 ≥ max_comments then [] else includedReplies max_comments rest (count + 1))
      else
        if count ≥ max_comments then [] else includedReplies max_comments rest count

/-- The fixed-format post block plus optional comment section (app.py 94-126). -/
def buildContent (include_comments : Bool) (max_comments : Nat) (d : RawDoc) : String :=
  let base := "\nTÍTULO: " ++ d.post.title.getD "" ++
    "\nCONTENIDO: " ++ d.post.selftext.getD "Sin contenido adicional" ++
    "\nSCORE: " ++ toString (d.post.score.getD 0) ++ " votos" ++
    "\nCOMENTARIOS: " ++ toString (d.post.num_comments.getD 0) ++ " comentarios" ++
    "\nURL: https://reddit.com" ++ d.post.permalink.getD "" ++
    "\nSUBREDDIT: r/" ++ d.post.subreddit.getD "" ++ "\n"
  match include_comments, d.comments with
  | true, CommentsSlot.present cs =>
    let sc := commentLoop max_comments cs 0 "\n\nCOMENTARIOS PRINCIPALES:\n"
    if sc.2 > 0 then base ++ sc.1 else base ++ "\n\nNo hay comentarios disponibles."
  | _, _ => base

/-- The normalized record built on a successful attempt (app.py 128-134). -/
def normalizeDoc (include_comments : Bool) (max_comments : Nat) (d : RawDoc) : Record :=
  { title := d.post.title.getD ""
    content := buildContent include_comments max_comments d
    score := d.post.score.getD 0
    url := "https://reddit.com" ++ d.post.permalink.getD ""
    subreddit := d.post.subreddit.getD "" }

/-! ## Acquisition Pipeline (app.py lines 41-164) -/

/-- Outcome of one HTTP GET, as the surrounding `try/except` sees it:
a timeout, a connection error, some other raised exception, or a
response with a status code, reason phrase, and (for 200) a body that
either parses to a thread document or raises while being decoded. -/
inductive ParseResult where
  | malformed (msg : String)
  | doc (d : RawDoc)
deriving DecidableEq, Repr

inductive HttpResult where
  | timeout
  | connError
  | exc (msg : String)
  | resp (status : Nat) (reason : String) (body : ParseResult)
deriving DecidableEq, Repr

/-- A header profile is the literal dictionary sent with the request. -/
abbrev HeaderProfile := List (String × String)

/-- The three endpoint templates (app.py 45-49). -/
def endpoints (post_id : String) : List String :=
  [ "https://old.reddit.com/comments/" ++ post_id ++ ".json"
  , "https://www.reddit.com/comments/" ++ post_id ++ ".json"
  , "https://reddit.com/comments/" ++ post_id ++ ".json" ]

/-- The three header profiles (app.py 52-68). -/
def headers_list : List HeaderProfile :=
  [ [ ("User-Agent", "Mozilla/5.0 (Windows NT 10.0; Win64; x64) AppleWebKit/537.36 (KHTML, like Gecko) Chrome/120.0.0.0 Safari/537.36")
    , ("Accept", "application/json, text/plain, */*")
    , ("Accept-Language", "en-US,en;q=0.9")
    , ("Cache-Control", "no-cache")
    , ("Pragma", "no-cache") ]
  , [ ("User-Agent", "Mozilla/5.0 (Macintosh; Intel Mac OS X 10_15_7) AppleWebKit/605.1.15 (KHTML, like Gecko) Version/17.0 Safari/605.1.15")
    , ("Accept", "*/*") ]
  , [ ("User-Agent", "PostAnalyzer/1.0 (Educational Purpose)")
    , ("Accept", "application/json") ] ]

/-- The network: each (endpoint, header profile) request has an outcome. -/
abbrev World := String → HeaderProfile → HttpResult

/-- Classification of one attempt (app.py 86-147): HTTP 200 with a
well-shaped document yields the normalized record (when replies are
requested, a malformed `data[1]` raises during normalization and is
caught as that attempt's error); 429 and other statuses, timeouts,
connection errors and other exceptions set `last_error`. -/
def attemptOutcome (include_comments : Bool) (max_comments : Nat) (r : HttpResult) :
    Except String Record :=
  match r with
  | HttpResult.timeout => Except.error "Tiempo de espera agotado"
  | HttpResult.connError => Except.error "Error de conexión"
  | HttpResult.exc m => Except.error m
  | HttpResult.resp status reason body =>
    if status = 200 then
      match body with
      | ParseResult.malformed m => Except.error m
      | ParseResult.doc d =>
        match include_comments, d.comments with
        | true, CommentsSlot.malformed m => Except.error m
        | _, _ => Except.ok (normalizeDoc include_comments max_comments d)
    else if status = 429 then
      Except.error "Rate limit alcanzado. Espera un momento antes de intentar de nuevo."
    else
      Except.error ("Error " ++ toString status ++ ": " ++ reason)

/-- Inner loop over header profiles for one endpoint (app.py 73-147):
first successful attempt returns its record; failures update `last_error`. -/
def tryHeaders (world : World) (ic : Bool) (mc : Nat) (endpoint : String) :
    List HeaderProfile → Option String → Option Record × Option String
  | [], last => (none, last)
  | h :: rest, last =>
    match attemptOutcome ic mc (world endpoint h) with
    | Except.ok r => (some r, last)
    | Except.error e => tryHeaders world ic mc endpoint rest (some e)

/-- Outer loop over endpoints (app.py 72). -/
def tryEndpoints (world : World) (ic : Bool) (mc : Nat) :
    List String → Option String → Option Record × Option String
  | [], last => (none, last)
  | e :: rest, last =>
    match tryHeaders world ic mc e headers_list last with
    | (some r, l) => (some r, l)
    | (none, l) => tryEndpoints world ic mc rest l

/-- `get_post_by_id` (app.py 41-164): the loop result, `None` on exhaustion. -/
def get_post_by_id (world : World) (post_id : String) (include_comments : Bool)
    (max_comments : Nat) : Option Record :=
  (tryEndpoints world include_comments max_comments (endpoints post_id) none).1

/-- The terminal `st.error` text on exhaustion (app.py 150-163); Python
renders a still-`None` `last_error` as the string `None`. -/
def renderLastError : Option String → String
  | none => "None"
  | some s => s

def exhaustionMessage (last_error : Option String) : String :=
  "\n    ❌ No se pudo obtener el post de Reddit.\n    \n    **Posibles razones:**\n    - Reddit está bloqueando las solicitudes desde servidores cloud\n    - El post no existe o fue eliminado\n    - Problemas de conectividad\n    \n    **Solución alternativa:**\n    1. Copia el contenido del post manualmente\n    2. Pégalo en el campo de texto alternativo abajo\n    \n    Último error: " ++ renderLastError last_error ++ "\n    "

/-- The message the UI shows when and only when every attempt failed. -/
def terminalMessage (world : World) (ic : Bool) (mc : Nat) (post_id : String) :
    Option String :=
  match tryEndpoints world ic mc (endpoints post_id) none with
  | (none, last) => some (exhaustionMessage last)
  | (some _, _) => none

/-! Ghost attempt log: the ordered list of (endpoint, header profile)
pairs for which the loops actually issue a request. -/

/-- Did this attempt succeed? -/
def attemptOk (ic : Bool) (mc : Nat) (r : HttpResult) : Bool :=
  match attemptOutcome ic mc r with
  | Except.ok _ => true
  | Except.error _ => false

def tryHeadersLog (world : World) (ic : Bool) (mc : Nat) (endpoint : String) :
    List HeaderProfile → List (String × HeaderProfile)
  | [] => []
  | h :: rest =>
    (endpoint, h) ::
      (if attemptOk ic mc (world endpoint h) then []
       else tryHeadersLog world ic mc endpoint rest)

def tryEndpointsLog (world : World) (ic : Bool) (mc : Nat) :
    List String → List (String × HeaderProfile)
  | [] => []
  | e :: rest =>
    if (tryHeaders world ic mc e headers_list none).1.isSome then
      tryHeadersLog world ic mc e headers_list
    else
      tryHeadersLog world ic mc e headers_list ++ tryEndpointsLog world ic mc rest

/-- All requests `get_post_by_id` actually issues, in order. -/
def attemptsMade (world : World) (ic : Bool) (mc : Nat) (post_id : String) :
    List (String × HeaderProfile) :=
  tryEndpointsLog world ic mc (endpoints post_id)

/-- The canonical cross-product order: every header profile of one
endpoint before the next endpoint. -/
def strategyPairs (post_id : String) : List (String × HeaderProfile) :=
  (endpoints post_id).flatMap (fun e => headers_list.map (fun h => (e, h)))

/-! ## Linearization of the nested attempt loops

The nested endpoint/header loops traverse exactly the cross-product
list `strategyPairs`; `pairsLoop` is the corresponding single loop and
is proved equal to the nested one, which makes order/early-return
properties provable by one induction over the pair list. -/

def pairsLoop (world : World) (ic : Bool) (mc : Nat) :
    List (String × HeaderProfile) → Option String → Option Record × Option String
  | [], last => (none, last)
  | p :: rest, last =>
    match attemptOutcome ic mc (world p.1 p.2) with
    | Except.ok r => (some r, last)
    | Except.error e => pairsLoop world ic mc rest (some e)

def pairsLoopLog (world : World) (ic : Bool) (mc : Nat) :
    List (String × HeaderProfile) → List (String × HeaderProfile)
  | [] => []
  | p :: rest =>
    p :: (if attemptOk ic mc (world p.1 p.2) then [] else pairsLoopLog world ic mc rest)

theorem pairsLoop_append (world : World) (ic : Bool) (mc : Nat)
    (xs ys : List (String × HeaderProfile)) (last : Option String) :
    pairsLoop world ic mc (xs ++ ys) last =
      match pairsLoop world ic mc xs last with
      | (some r, l) => (some r, l)
      | (none, l) => pairsLoop world ic mc ys l := by
  induction xs generalizing last with
  | nil => simp [pairsLoop]
  | cons p rest ih =>
    simp only [List.cons_append, pairsLoop]
    cases attemptOutcome ic mc (world p.1 p.2) with
    | ok r => rfl
    | error e => exact ih (some e)

theorem tryHeaders_eq_pairsLoop (world : World) (ic : Bool) (mc : Nat) (e : String)
    (hs : List HeaderProfile) (last : Option String) :
    tryHeaders world ic mc e hs last =
      pairsLoop world ic mc (hs.map (fun h => (e, h))) last := by
  induction hs generalizing last with
  | nil => rfl
  | cons h rest ih =>
    simp only [List.map_cons, tryHeaders, pairsLoop]
    cases attemptOutcome ic mc (world e h) with
    | ok r => rfl
    | error err => exact ih (some err)

theorem tryEndpoints_eq_pairsLoop (world : World) (ic : Bool) (mc : Nat)
    (es : List String) (last : Option String) :
    tryEndpoints world ic mc es last =
      pairsLoop world ic mc (es.flatMap (fun e => headers_list.map (fun h => (e, h)))) last := by
  induction es generalizing last with
  | nil => rfl
  | cons e rest ih =>
    simp only [List.flatMap_cons, tryEndpoints, pairsLoop_append,
      tryHeaders_eq_pairsLoop]
    cases hp : pairsLoop world ic mc (headers_list.map (fun h => (e, h))) last with
    | mk fst snd =>
      cases fst with
      | some r => rfl
      | none => exact ih snd

theorem get_post_by_id_eq_pairsLoop (world : World) (ic : Bool) (mc : Nat)
    (pid : String) :
    get_post_by_id world pid ic mc =
      (pairsLoop world ic mc (strategyPairs pid) none).1 := by
  simp [get_post_by_id, strategyPairs, tryEndpoints_eq_pairsLoop]

theorem tryHeadersLog_eq_pairsLoopLog (world : World) (ic : Bool) (mc : Nat)
    (e : String) (hs : List HeaderProfile) :
    tryHeadersLog world ic mc e hs =
      pairsLoopLog world ic mc (hs.map (fun h => (e, h))) := by
  induction hs with
  | nil => rfl
  | cons h rest ih => simp only [List.map_cons, tryHeadersLog, pairsLoopLog, ih]

/-- Whether an attempt run succeeds does not depend on the incoming
`last_error` value. -/
theorem pairsLoop_fst_irrel (world : World) (ic : Bool) (mc : Nat)
    (xs : List (String × HeaderProfile)) (l l' : Option String) :
    (pairsLoop world ic mc xs l).1 = (pairsLoop world ic mc xs l').1 := by
  induction xs generalizing l l' with
  | nil => rfl
  | cons q qs ihq =>
    simp only [pairsLoop]
    cases attemptOutcome ic mc (world q.1 q.2) with
    | ok r => rfl
    | error e2 => exact ihq (some e2) (some e2)

/-- In the linear loop, the attempts stop exactly at the first success. -/
theorem pairsLoopLog_append (world : World) (ic : Bool) (mc : Nat)
    (xs ys : List (String × HeaderProfile)) :
    pairsLoopLog world ic mc (xs ++ ys) =
      if (pairsLoop world ic mc xs none).1.isSome then
        pairsLoopLog world ic mc xs
      else
        pairsLoopLog world ic mc xs ++ pairsLoopLog world ic mc ys := by
  induction xs with
  | nil => simp [pairsLoop, pairsLoopLog]
  | cons p rest ih =>
    cases h : attemptOutcome ic mc (world p.1 p.2) with
    | ok r => simp [List.cons_append, pairsLoopLog, pairsLoop, attemptOk, h]
    | error e =>
      simp only [List.cons_append, pairsLoopLog, pairsLoop, attemptOk, h, List.append_eq]
      rw [ih, pairsLoop_fst_irrel world ic mc rest (some e) none]
      by_cases hs : (pairsLoop world ic mc rest none).1.isSome
      · simp [hs]
      · simp [hs]

theorem tryEndpointsLog_eq_pairsLoopLog (world : World) (ic : Bool) (mc : Nat)
    (es : List String) :
    tryEndpointsLog world ic mc es =
      pairsLoopLog world ic mc (es.flatMap (fun e => headers_list.map (fun h => (e, h)))) := by
  induction es with
  | nil => rfl
  | cons e rest ih =>
    simp only [List.flatMap_cons, tryEndpointsLog, pairsLoopLog_append,
      tryHeadersLog_eq_pairsLoopLog, tryHeaders_eq_pairsLoop, ih]

theorem attemptsMade_eq_pairsLoopLog (world : World) (ic : Bool) (mc : Nat)
    (pid : String) :
    attemptsMade world ic mc pid = pairsLoopLog world ic mc (strategyPairs pid) := by
  simp [attemptsMade, strategyPairs, tryEndpointsLog_eq_pairsLoopLog]

/-- Core order/early-return property of the attempt loop: if every pair
before `p` fails and `p` succeeds with record `r`, the loop returns `r`
and exactly the pairs up to and including `p` are attempted. -/
theorem pairsLoop_firstSuccess (world : World) (ic : Bool) (mc : Nat)
    (a b : List (String × HeaderProfile)) (p : String × HeaderProfile) (r : Record) :
    ∀ last : Option String,
      (∀ q ∈ a, attemptOk ic mc (world q.1 q.2) = false) →
      attemptOutcome ic mc (world p.1 p.2) = Except.ok r →
      (pairsLoop world ic mc (a ++ p :: b) last).1 = some r ∧
        pairsLoopLog world ic mc (a ++ p :: b) = a ++ [p] := by
  induction a with
  | nil =>
    intro last _ hok
    simp [pairsLoop, pairsLoopLog, attemptOk, hok]
  | cons q qs ih =>
    intro last hfail hok
    have hq : attemptOk ic mc (world q.1 q.2) = false := hfail q (by simp)
    have hqs : ∀ x ∈ qs, attemptOk ic mc (world x.1 x.2) = false :=
      fun x hx => hfail x (by simp [hx])
    cases he : attemptOutcome ic mc (world q.1 q.2) with
    | ok s => simp [attemptOk, he] at hq
    | error e =>
      have hrec := ih (some e) hqs hok
      constructor
      · simpa only [List.cons_append, pairsLoop, he] using hrec.1
      · simp only [List.cons_append, pairsLoopLog, hq, attemptOk, he,
          Bool.false_eq_true, if_false, List.append_eq, hrec.2]

/-- The attempt log is an initial segment of the traversed pair list. -/
theorem pairsLoopLog_take (world : World) (ic : Bool) (mc : Nat)
    (xs : List (String × HeaderProfile)) :
    pairsLoopLog world ic mc xs = xs.take (pairsLoopLog world ic mc xs).length := by
  induction xs with
  | nil => rfl
  | cons p rest ih =>
    simp only [pairsLoopLog]
    by_cases h : attemptOk ic mc (world p.1 p.2)
    · simp [h]
    · simp only [h, Bool.false_eq_true, if_false, List.length_cons, List.take_succ_cons]
      exact congrArg (p :: ·) ih

theorem pairsLoopLog_length_le (world : World) (ic : Bool) (mc : Nat)
    (xs : List (String × HeaderProfile)) :
    (pairsLoopLog world ic mc xs).length ≤ xs.length := by
  conv_lhs => rw [pairsLoopLog_take world ic mc xs]
  simp

/-- Claim C1: the Acquisition Pipeline attempts its strategies strictly
in list order; the first strategy whose HTTP response is a 200 with a
well-shaped thread document makes `get_post_by_id` return that
strategy's normalized record immediately, and no later strategy is
attempted: when the strategy list splits as `a ++ p :: b` with every
attempt in `a` failing and `p` succeeding with record `r`, the result
is `some r` and the attempts made are exactly `a ++ [p]`. -/
theorem claim_C1_pipeline_first_success (world : World) (ic : Bool) (mc : Nat)
    (pid : String) (a b : List (String × HeaderProfile))
    (p : String × HeaderProfile) (r : Record)
    (hsplit : strategyPairs pid = a ++ p :: b)
    (hfail : ∀ q ∈ a, attemptOk ic mc (world q.1 q.2) = false)
    (hok : attemptOutcome ic mc (world p.1 p.2) = Except.ok r) :
    get_post_by_id world pid ic mc = some r ∧
      attemptsMade world ic mc pid = a ++ [p] := by
  have h := pairsLoop_firstSuccess world ic mc a b p r none hfail hok
  constructor
  · rw [get_post_by_id_eq_pairsLoop, hsplit]
    exact h.1
  · rw [attemptsMade_eq_pairsLoopLog, hsplit]
    exact h.2

/-- A concrete raw document used by witnesses. -/
def sampleDoc : RawDoc :=
  { post :=
    { title := some "Titulo de prueba"
      selftext := some "Cuerpo del post"
      score := some 10
      num_comments := some 2
      permalink := some "/r/test/comments/abc/titulo/"
      subreddit := some "test" }
    comments := CommentsSlot.present
      [ { kind := some "t1", body := some "hola", score := some 3 } ] }

/-- A network in which only requests carrying the third header profile
(identified by its User-Agent) succeed; all others time out. -/
def sampleWorldC1 : World := fun _ h =>
  match h with
  | ("User-Agent", "PostAnalyzer/1.0 (Educational Purpose)") :: _ =>
    HttpResult.resp 200 "OK" (ParseResult.doc sampleDoc)
  | _ => HttpResult.timeout

theorem claim_C1_witness :
    get_post_by_id sampleWorldC1 "abc" true 15 = some (normalizeDoc true 15 sampleDoc) ∧
      attemptsMade sampleWorldC1 true 15 "abc" =
        (strategyPairs "abc").take 2 ++
          [("https://old.reddit.com/comments/abc.json",
            [("User-Agent", "PostAnalyzer/1.0 (Educational Purpose)"),
             ("Accept", "application/json")])] :=
  claim_C1_pipeline_first_success sampleWorldC1 true 15 "abc"
    ((strategyPairs "abc").take 2) ((strategyPairs "abc").drop 3)
    ("https://old.reddit.com/comments/abc.json",
      [("User-Agent", "PostAnalyzer/1.0 (Educational Purpose)"),
       ("Accept", "application/json")])
    (normalizeDoc true 15 sampleDoc)
    (by decide) (by decide) rfl

/-- Claim C10: for every post identifier and options, `get_post_by_id`
issues at most 9 HTTP attempts, those attempts are an initial segment of
the cross product that tries every header profile of one endpoint before
the next endpoint, and the function always returns a plain value (a
normalized record or `None`). -/
theorem claim_C10_bounded_attempts (world : World) (ic : Bool) (mc : Nat)
    (pid : String) :
    (attemptsMade world ic mc pid).length ≤ 9 ∧
      attemptsMade world ic mc pid =
        (strategyPairs pid).take (attemptsMade world ic mc pid).length ∧
      (get_post_by_id world pid ic mc = none ∨
        ∃ r, get_post_by_id world pid ic mc = some r) := by
  have hlen : (strategyPairs pid).length = 9 := rfl
  refine ⟨?_, ?_, ?_⟩
  · rw [attemptsMade_eq_pairsLoopLog]
    calc (pairsLoopLog world ic mc (strategyPairs pid)).length
        ≤ (strategyPairs pid).length := pairsLoopLog_length_le world ic mc _
      _ = 9 := hlen
  · rw [attemptsMade_eq_pairsLoopLog]
    exact pairsLoopLog_take world ic mc _
  · cases h : get_post_by_id world pid ic mc with
    | none => exact Or.inl rfl
    | some r => exact Or.inr ⟨r, rfl⟩

/-! ## Substring lemmas used for message-content claims -/

theorem strData_append (s t : String) : (s ++ t).data = s.data ++ t.data := by
  cases s
  cases t
  rfl

theorem isPre_append_self (p b : List Char) : isPre p (p ++ b) = true := by
  induction p with
  | nil => rfl
  | cons c cs ih => simp [isPre, ih]

theorem isPre_mono (p a t : List Char) (h : isPre p a = true) :
    isPre p (a ++ t) = true := by
  induction p generalizing a with
  | nil => rfl
  | cons c cs ih =>
    cases a with
    | nil => simp [isPre] at h
    | cons x xs =>
      simp only [isPre, Bool.and_eq_true] at h
      simp [isPre, h.1, ih xs h.2]

theorem containsSub_self_append (p b : List Char) : containsSub p (p ++ b) = true := by
  cases p with
  | nil =>
    cases b with
    | nil => rfl
    | cons c cs => simp [containsSub, isPre]
  | cons c cs =>
    simp only [containsSub, Bool.or_eq_true]
    exact Or.inl (isPre_append_self (c :: cs) b)

theorem containsSub_append_right (p a t : List Char) (h : containsSub p t = true) :
    containsSub p (a ++ t) = true := by
  induction a with
  | nil => exact h
  | cons x xs ih =>
    simp only [List.cons_append, containsSub, Bool.or_eq_true]
    exact Or.inr ih

theorem containsSub_append_left (p a t : List Char) (h : containsSub p a = true) :
    containsSub p (a ++ t) = true := by
  induction a with
  | nil =>
    have hp : p = [] := by
      cases p with
      | nil => rfl
      | cons c cs => simp [containsSub, isPre] at h
    subst hp
    cases t with
    | nil => rfl
    | cons c cs => simp [containsSub, isPre]
  | cons x xs ih =>
    simp only [containsSub, Bool.or_eq_true] at h
    simp only [List.cons_append, containsSub, Bool.or_eq_true]
    cases h with
    | inl h => exact Or.inl (isPre_mono p (x :: xs) t h)
    | inr h => exact Or.inr (ih h)

/-- A network in which every request times out. -/
def timeoutWorld : World := fun _ _ => HttpResult.timeout

/-- Claim C4 as stated is false: when all 9 strategies fail, the
terminal error text contains the last concrete error, but it does not
contain the count of strategies tried — neither the digit 9 (attempts)
nor 3 (endpoints) occurs anywhere in the shown message. -/
theorem claim_C4_counterexample :
    (attemptsMade timeoutWorld true 15 "abc").length = 9 ∧
      terminalMessage timeoutWorld true 15 "abc" =
        some (exhaustionMessage (some "Tiempo de espera agotado")) ∧
      strContains "Tiempo de espera agotado"
        (exhaustionMessage (some "Tiempo de espera agotado")) = true ∧
      strContains "9" (exhaustionMessage (some "Tiempo de espera agotado")) = false ∧
      strContains "3" (exhaustionMessage (some "Tiempo de espera agotado")) = false := by
  refine ⟨by decide, by decide, by decide, by decide, by decide⟩

/-- Claim C4 (amended): if every strategy fails, `get_post_by_id`
returns `None` and the UI shows a terminal message that contains the
last concrete error encountered and the manual-entry guidance — but not
the count of strategies tried. -/
theorem claim_C4_terminal_message (world : World) (ic : Bool) (mc : Nat)
    (pid : String) (h : get_post_by_id world pid ic mc = none) :
    ∃ last, tryEndpoints world ic mc (endpoints pid) none = (none, last) ∧
      terminalMessage world ic mc pid = some (exhaustionMessage last) ∧
      strContains (renderLastError last) (exhaustionMessage last) = true ∧
      strContains "Copia el contenido del post manualmente"
        (exhaustionMessage last) = true := by
  cases hte : tryEndpoints world ic mc (endpoints pid) none with
  | mk fst snd =>
    have hfst : fst = none := by
      have := h
      rw [get_post_by_id, hte] at this
      exact this
    subst hfst
    refine ⟨snd, rfl, ?_, ?_, ?_⟩
    · rw [terminalMessage, hte]
    · show containsSub (renderLastError snd).data (exhaustionMessage snd).data = true
      rw [exhaustionMessage, strData_append, strData_append, List.append_assoc]
      exact containsSub_append_right _ _ _ (containsSub_self_append _ _)
    · show containsSub "Copia el contenido del post manualmente".data
        (exhaustionMessage snd).data = true
      rw [exhaustionMessage, strData_append, strData_append]
      exact containsSub_append_left _ _ _ (containsSub_append_left _ _ _ (by decide))

theorem claim_C4_witness :
    ∃ last, tryEndpoints timeoutWorld true 15 (endpoints "xyz") none = (none, last) ∧
      terminalMessage timeoutWorld true 15 "xyz" = some (exhaustionMessage last) ∧
      strContains (renderLastError last) (exhaustionMessage last) = true ∧
      strContains "Copia el contenido del post manualmente"
        (exhaustionMessage last) = true :=
  claim_C4_terminal_message timeoutWorld true 15 "xyz" (by decide)

/-! ## Reply-cap and reply-filter properties of the comment loop -/

/-- The comment count the loop produces never exceeds
`max max_comments (count + 1)`: the cap is only checked after an
append, so from a start count of 0 the loop emits at most
`max max_comments 1` replies. -/
theorem commentLoop_count_le (mc : Nat) (cs : List RawComment) :
    ∀ (count : Nat) (acc : String), (commentLoop mc cs count acc).2 ≤ max mc (count + 1) := by
  induction cs with
  | nil =>
    intro count acc
    exact le_max_of_le_right (Nat.le_succ count)
  | cons c rest ih =>
    intro count acc
    by_cases hk : (c.kind != some "t1") = true
    · simp only [commentLoop, hk, if_true]
      exact ih count acc
    · simp only [commentLoop, hk, Bool.false_eq_true, if_false]
      by_cases hb : (c.body.getD "" != "" && c.body.getD "" != "[deleted]" &&
          c.body.getD "" != "[removed]") = true
      · simp only [hb, if_true]
        by_cases hstop : count + 1 ≥ mc
        · simp only [hstop, if_true]
          exact le_max_of_le_right (Nat.le_refl _)
        · simp only [hstop, if_false]
          have h := ih (count + 1) (acc ++ "\n--- COMENTARIO " ++ toString (count + 1) ++
            " (Score: " ++ toString (c.score.getD 0) ++ ") ---\n" ++ c.body.getD "" ++ "\n")
          omega
      · simp only [hb, Bool.false_eq_true, if_false]
        by_cases hstop : count ≥ mc
        · simp only [hstop, if_true]
          exact le_max_of_le_right (Nat.le_succ count)
        · simp only [hstop, if_false]
          have h := ih count acc
          omega

/-- The loop's final count equals its starting count plus the number of
replies it includes. -/
theorem commentLoop_count_eq (mc : Nat) (cs : List RawComment) :
    ∀ (count : Nat) (acc : String),
      (commentLoop mc cs count acc).2 = count + (includedReplies mc cs count).length := by
  induction cs with
  | nil => intro count acc; rfl
  | cons c rest ih =>
    intro count acc
    by_cases hk : (c.kind != some "t1") = true
    · simp only [commentLoop, includedReplies, hk, if_true]
      exact ih count acc
    · simp only [commentLoop, includedReplies, hk, Bool.false_eq_true, if_false]
      by_cases hb : (c.body.getD "" != "" && c.body.getD "" != "[deleted]" &&
          c.body.getD "" != "[removed]") = true
      · simp only [hb, if_true]
        by_cases hstop : count + 1 ≥ mc
        · simp only [hstop, if_true, List.length_cons, List.length_nil]
        · simp only [hstop, if_false, List.length_cons]
          rw [ih (count + 1)]
          omega
      · simp only [hb, Bool.false_eq_true, if_false]
        by_cases hstop : count ≥ mc
        · simp only [hstop, if_true, List.length_nil]
          omega
        · simp only [hstop, if_false]
          exact ih count acc

/-- Every included reply is a top-level (`t1`) reply whose body is
non-empty and neither `[deleted]` nor `[removed]`. -/
theorem includedReplies_valid (mc : Nat) (cs : List RawComment) :
    ∀ (count : Nat) (c : RawComment), c ∈ includedReplies mc cs count →
      c.kind = some "t1" ∧ c.body.getD "" ≠ "" ∧
        c.body.getD "" ≠ "[deleted]" ∧ c.body.getD "" ≠ "[removed]" := by
  induction cs with
  | nil => intro count c h; simp [includedReplies] at h
  | cons x rest ih =>
    intro count c h
    by_cases hk : (x.kind != some "t1") = true
    · rw [includedReplies, if_pos hk] at h
      exact ih count c h
    · rw [includedReplies, if_neg hk] at h
      by_cases hb : (x.body.getD "" != "" && x.body.getD "" != "[deleted]" &&
          x.body.getD "" != "[removed]") = true
      · rw [if_pos hb] at h
        rcases List.mem_cons.mp h with hc | hc
        · subst hc
          have hk2 : c.kind = some "t1" := by
            simp only [bne_iff_ne, ne_eq, not_not] at hk
            exact hk
          have hb2 := hb
          simp only [Bool.and_eq_true, bne_iff_ne, ne_eq] at hb2
          exact ⟨hk2, hb2.1.1, hb2.1.2, hb2.2⟩
        · by_cases hstop : count + 1 ≥ mc
          · rw [if_pos hstop] at hc
            simp at hc
          · rw [if_neg hstop] at hc
            exact ih (count + 1) c hc
      · rw [if_neg hb] at h
        by_cases hstop : count ≥ mc
        · rw [if_pos hstop] at h
          simp at h
        · rw [if_neg hstop] at h
          exact ih count c h

/-- Claim C2 as stated is false at the bound k = 0: with a single valid
top-level reply and `maxReplies = 0`, the loop appends one reply, since
the cap is only checked after an append. -/
theorem claim_C2_counterexample :
    ¬ ((commentLoop 0 [{ kind := some "t1", body := some "hola", score := some 3 }] 0 "").2 ≤ 0) := by
  decide

/-- Claim C2 (amended): with `includeReplies = true` the normalizer
appends at most `max k 1` replies for the bound `k` (so at most `k`
whenever `k ≥ 1`, but one reply when `k = 0`), and a reply whose kind
marker is not `t1`, or whose body is empty, `[deleted]` or `[removed]`,
is never included, regardless of `k`. -/
theorem claim_C2_reply_cap (k : Nat) (cs : List RawComment) (acc : String) :
    (commentLoop k cs 0 acc).2 = (includedReplies k cs 0).length ∧
      (commentLoop k cs 0 acc).2 ≤ max k 1 ∧
      ∀ c ∈ includedReplies k cs 0,
        c.kind = some "t1" ∧ c.body.getD "" ≠ "" ∧
          c.body.getD "" ≠ "[deleted]" ∧ c.body.getD "" ≠ "[removed]" :=
  ⟨by simpa using commentLoop_count_eq k cs 0 acc,
   commentLoop_count_le k cs 0 acc,
   fun c hc => includedReplies_valid k cs 0 c hc⟩

/-! ## Analysis Client, session state and UI handlers (app.py 166-421) -/

/-- The language-model endpoint: the single user-role prompt either
produces text or fails with an exception message. -/
abbrev Client := String → Except String String

/-- The analysis prompt template (app.py 168-184), with the default
focus phrase substituted when the supplied one is empty. -/
def buildAnalysisPrompt (post_content analysis_prompt : String) : String :=
  let ap := if analysis_prompt = "" then "Identifica y resume los subtemas principales"
            else analysis_prompt
  "\nAnaliza este texto de Reddit y responde:\n\n1. ¿Cuál es el tema principal? (en 5-10 palabras)\n2. ¿Hay una pregunta principal? (sí/no y cuál)\n3. Lista los subtemas detectados con un titular y resumen en bullets\n\nEl análisis debe centrarse en: " ++ ap ++ "\n\nCONTENIDO:\n" ++ post_content ++ "\n"

/-- `analyze_post` (app.py 166-193): on success the completion text, on
any exception the tagged error string. -/
def analyze_post (client : Client) (post_content analysis_prompt : String) : String :=
  match client (buildAnalysisPrompt post_content analysis_prompt) with
  | Except.ok text => text
  | Except.error e => "❌ Error en análisis: " ++ e

/-- A chat exchange is a one-key dictionary: `{"user": t}` or
`{"assistant": t}` (app.py 388, 411). -/
inductive Exchange where
  | user (text : String)
  | assistant (text : String)
deriving DecidableEq, Repr

/-- `st.session_state` (app.py 18-25). -/
structure SessionState where
  current_post_id : Option String
  current_post : Option Record
  current_analysis : Option String
  chat_history : List Exchange
deriving DecidableEq, Repr

/-- The tab-1 analyze-button handler (app.py 293-309): URL → id →
fetch → analysis, then one state update installing the new post,
analysis and id and clearing the chat history; on any earlier failure
the state is left unchanged (only messages are shown). -/
def analyzeHandler (st : SessionState) (client : Client) (world : World)
    (url : String) (include_comments : Bool) (max_comments : Nat)
    (analysis_prompt : String) : SessionState :=
  if url = "" then st
  else
    match extract_post_id_from_url url with
    | none => st
    | some post_id =>
      match get_post_by_id world post_id include_comments max_comments with
      | none => st
      | some post =>
        let analysis := analyze_post client post.content analysis_prompt
        { current_post := some post
          current_analysis := some analysis
          current_post_id := some post_id
          chat_history := [] }

/-- The tab-1 manual-entry handler (app.py 344-362). -/
def manualHandler (st : SessionState) (client : Client)
    (manual_title manual_subreddit manual_content analysis_prompt now : String) :
    SessionState :=
  if manual_title ≠ "" ∧ manual_content ≠ "" then
    let post : Record :=
      { title := manual_title
        content := manual_content
        score := 0
        url := "Entrada manual"
        subreddit := if manual_subreddit = "" then "unknown" else manual_subreddit }
    let analysis := analyze_post client manual_content analysis_prompt
    { current_post := some post
      current_analysis := some analysis
      current_post_id := some ("manual_" ++ now)
      chat_history := [] }
  else st

/-- The chat prompt template (app.py 393-403). -/
def buildChatPrompt (post_content analysis user_input : String) : String :=
  "\nContexto del post:\n" ++ post_content ++ "\n\nAnálisis previo:\n" ++ analysis ++
    "\n\nPregunta del usuario: " ++ user_input ++
    "\n\nResponde basándote únicamente en la información del post.\n"

/-- The tab-2 chat handler (app.py 386-414): the user message is
appended before the completion call; only a successful call appends an
assistant message (a failure shows an error and leaves history as is). -/
def chatHandler (st : SessionState) (client : Client) (user_input : String) :
    SessionState :=
  if user_input = "" then st
  else
    let st1 := { st with chat_history := st.chat_history ++ [Exchange.user user_input] }
    let post_content := (st.current_post.map Record.content).getD ""
    let analysis := st.current_analysis.getD ""
    match client (buildChatPrompt post_content analysis user_input) with
    | Except.ok answer =>
      { st1 with chat_history := st1.chat_history ++ [Exchange.assistant answer] }
    | Except.error _ => st1

/-- The clear-chat button (app.py 419-421). -/
def clearChat (st : SessionState) : SessionState :=
  { st with chat_history := [] }

/-- A client whose completion call always fails. -/
def failingClient : Client := fun _ => Except.error "boom"

/-- A network in which every request immediately succeeds with `sampleDoc`. -/
def okWorld : World := fun _ _ => HttpResult.resp 200 "OK" (ParseResult.doc sampleDoc)

/-- A session that already holds a post, an analysis and a chat history. -/
def st0 : SessionState :=
  { current_post_id := some "prev0"
    current_post := some
      { title := "anterior", content := "contenido anterior", score := 1,
        url := "https://reddit.com/r/a/comments/prev0/x/", subreddit := "a" }
    current_analysis := some "análisis previo"
    chat_history := [Exchange.user "hola"] }

/-- Claim C3 as stated is false: when the language-model call fails
during the analyze-button flow, the tagged error string IS stored as
the session's current analysis, and the stored state changes (the
history is cleared in the same update). -/
theorem claim_C3_counterexample :
    (analyzeHandler st0 failingClient okWorld "https://redd.it/abc123" true 15 "").current_analysis
        = some ("❌ Error en análisis: boom") ∧
      (analyzeHandler st0 failingClient okWorld "https://redd.it/abc123" true 15 "").chat_history
        = [] ∧
      st0.chat_history ≠ [] := by
  refine ⟨by decide, by decide, by decide⟩

/-- Claim C3 (amended): on any failure of the language-model call,
`analyze_post` returns the tagged error string rather than raising, and
the analyze handler stores exactly that string as the session's current
analysis (together with the freshly fetched record, clearing history). -/
theorem claim_C3_error_string_stored (st : SessionState) (client : Client)
    (world : World) (url analysis_prompt : String) (ic : Bool) (mc : Nat)
    (pid : String) (post : Record) (e : String)
    (hurl : url ≠ "")
    (hpid : extract_post_id_from_url url = some pid)
    (hfetch : get_post_by_id world pid ic mc = some post)
    (herr : client (buildAnalysisPrompt post.content analysis_prompt) = Except.error e) :
    analyze_post client post.content analysis_prompt = "❌ Error en análisis: " ++ e ∧
      (analyzeHandler st client world url ic mc analysis_prompt).current_analysis =
        some ("❌ Error en análisis: " ++ e) := by
  have ha : analyze_post client post.content analysis_prompt = "❌ Error en análisis: " ++ e := by
    rw [analyze_post, herr]
  refine ⟨ha, ?_⟩
  simp [analyzeHandler, hurl, hpid, hfetch, ha]

theorem claim_C3_witness :
    analyze_post failingClient (normalizeDoc true 15 sampleDoc).content "" =
        "❌ Error en análisis: " ++ "boom" ∧
      (analyzeHandler st0 failingClient okWorld "https://redd.it/abc123" true 15 "").current_analysis =
        some ("❌ Error en análisis: " ++ "boom") :=
  claim_C3_error_string_stored st0 failingClient okWorld "https://redd.it/abc123" ""
    true 15 "abc123" (normalizeDoc true 15 sampleDoc) "boom"
    (by decide) (by decide) (by decide) rfl

/-- Claim C6: `ask(X)` with a failing completion call leaves exactly one
new user exchange in the history (appended before the call) and no
assistant exchange. -/
theorem claim_C6_failed_ask_history (st : SessionState) (client : Client)
    (x e : String) (hx : x ≠ "")
    (herr : client (buildChatPrompt ((st.current_post.map Record.content).getD "")
      (st.current_analysis.getD "") x) = Except.error e) :
    (chatHandler st client x).chat_history = st.chat_history ++ [Exchange.user x] := by
  simp [chatHandler, hx, herr]

theorem claim_C6_witness :
    (chatHandler st0 failingClient "qué opinas").chat_history =
      st0.chat_history ++ [Exchange.user "qué opinas"] :=
  claim_C6_failed_ask_history st0 failingClient "qué opinas" "boom" (by decide) rfl

/-- Claim C7: a successful acquisition — automatic or manual — installs
the new ThreadRecord, the fresh analysis and the new post id and clears
the chat history in one atomic state update, independent of the prior
session state. -/
theorem claim_C7_acquisition_resets (st : SessionState) (client : Client)
    (world : World) (url analysis_prompt : String) (ic : Bool) (mc : Nat)
    (pid : String) (post : Record) (t sub c ap now : String)
    (hurl : url ≠ "")
    (hpid : extract_post_id_from_url url = some pid)
    (hfetch : get_post_by_id world pid ic mc = some post)
    (ht : t ≠ "") (hc : c ≠ "") :
    analyzeHandler st client world url ic mc analysis_prompt =
      { current_post := some post
        current_analysis := some (analyze_post client post.content analysis_prompt)
        current_post_id := some pid
        chat_history := [] } ∧
      manualHandler st client t sub c ap now =
        { current_post := some
            { title := t, content := c, score := 0, url := "Entrada manual",
              subreddit := if sub = "" then "unknown" else sub }
          current_analysis := some (analyze_post client c ap)
          current_post_id := some ("manual_" ++ now)
          chat_history := [] } := by
  constructor
  · simp [analyzeHandler, hurl, hpid, hfetch]
  · simp [manualHandler, ht, hc]

theorem claim_C7_witness :
    analyzeHandler st0 failingClient okWorld "https://redd.it/abc123" true 15 "" =
      { current_post := some (normalizeDoc true 15 sampleDoc)
        current_analysis := some (analyze_post failingClient (normalizeDoc true 15 sampleDoc).content "")
        current_post_id := some "abc123"
        chat_history := [] } ∧
      manualHandler st0 failingClient "titulo" "" "cuerpo" "" "20240101" =
        { current_post := some
            { title := "titulo", content := "cuerpo", score := 0, url := "Entrada manual",
              subreddit := if "" = "" then "unknown" else "" }
          current_analysis := some (analyze_post failingClient "cuerpo" "")
          current_post_id := some ("manual_" ++ "20240101")
          chat_history := [] } :=
  claim_C7_acquisition_resets st0 failingClient okWorld "https://redd.it/abc123" ""
    true 15 "abc123" (normalizeDoc true 15 sampleDoc) "titulo" "" "cuerpo" "" "20240101"
    (by decide) (by decide) (by decide) (by decide) (by decide)

/-- Claim C8: the clear-chat operation empties the history and leaves
the current post, analysis and post id untouched. -/
theorem claim_C8_clear_chat (st : SessionState) :
    (clearChat st).chat_history = [] ∧
      (clearChat st).current_post = st.current_post ∧
      (clearChat st).current_analysis = st.current_analysis ∧
      (clearChat st).current_post_id = st.current_post_id :=
  ⟨rfl, rfl, rfl, rfl⟩

/-! ## Export Formatter (`generate_txt_export`, app.py 195-226) -/

/-- `"=" * 40` (app.py 218). -/
def eqRule : String := String.mk (List.replicate 40 '=')

/-- `"-" * 40` (app.py 224). -/
def dashRule : String := String.mk (List.replicate 40 '-')

/-- The per-message loop of the export (app.py 219-224): each exchange
renders its role label and text, followed by a 40-dash rule. -/
def renderChatMsgs : List Exchange → String
  | [] => ""
  | Exchange.user t :: rest =>
    "\n👤 Usuario: " ++ t ++ "\n" ++ dashRule ++ renderChatMsgs rest
  | Exchange.assistant t :: rest =>
    "\n🤖 Asistente: " ++ t ++ "\n" ++ dashRule ++ renderChatMsgs rest

/-- `generate_txt_export` (app.py 195-226): header with timestamp,
original-post section, analysis section, and — only when the history is
non-empty — the chat-transcript section. -/
def generate_txt_export (post_data : Record) (analysis : String)
    (chat_history : List Exchange) (now : String) : String :=
  let content :=
    String.mk (List.replicate 48 '═') ++ "\nANÁLISIS DE POST DE REDDIT\nFecha: " ++ now ++
    "\n" ++ String.mk (List.replicate 48 '═') ++ "\n\n📌 POST ORIGINAL\n" ++
    String.mk (List.replicate 16 '-') ++ "\nTítulo: " ++ post_data.title ++
    "\nSubreddit: r/" ++ post_data.subreddit ++
    "\nURL: " ++ post_data.url ++
    "\nScore: " ++ toString post_data.score ++ " votos" ++
    "\n\n📝 CONTENIDO COMPLETO:\n" ++ post_data.content ++
    "\n\n🔍 ANÁLISIS:\n" ++ analysis ++ "\n"
  if chat_history.isEmpty then content
  else content ++ "\n\n💬 HISTORIAL DE CHAT:\n" ++ eqRule ++ "\n" ++
    renderChatMsgs chat_history

/-- `p` occurs strictly before `q` in `l` (both occur). -/
def occursBefore (p q l : List Char) : Bool :=
  match firstOcc p l, firstOcc q l with
  | some i, some j => decide (i < j)
  | _, _ => false

/-- A concrete record exercising the export formatter. -/
def sampleExportRecord : Record :=
  { title := "mi titulo de prueba"
    content := "contenido completo aqui"
    score := 5
    url := "https://reddit.com/r/test/comments/abc/x/"
    subreddit := "test" }

/-- Claim C9: the Export Formatter is a function of exactly
(record, analysis, history, timestamp); with an empty history its output
contains the thread title and the analysis text but no chat-transcript
section, and with one user plus one assistant exchange the output
contains both role labels in chronological order. -/
theorem claim_C9_export_format :
    (strContains "mi titulo de prueba"
        (generate_txt_export sampleExportRecord "analisis de prueba xyz" [] "2024-01-01 00:00:00") = true ∧
      strContains "analisis de prueba xyz"
        (generate_txt_export sampleExportRecord "analisis de prueba xyz" [] "2024-01-01 00:00:00") = true ∧
      strContains "HISTORIAL DE CHAT"
        (generate_txt_export sampleExportRecord "analisis de prueba xyz" [] "2024-01-01 00:00:00") = false) ∧
      occursBefore "👤 Usuario".data "🤖 Asistente".data
        (generate_txt_export sampleExportRecord "analisis de prueba xyz"
          [Exchange.user "pregunta uno", Exchange.assistant "respuesta uno"]
          "2024-01-01 00:00:00").data = true := by
  refine ⟨⟨by decide, by decide, by decide⟩, by decide⟩

/-! ## Lemmas about the regex search driver, toward the ID Extractor claim -/

theorem data_mk (l : List Char) : (String.mk l).data = l := rfl

theorem isPre_mem (p l : List Char) (h : isPre p l = true) : ∀ c ∈ p, c ∈ l := by
  induction p generalizing l with
  | nil => intro c hc; simp at hc
  | cons a as ih =>
    cases l with
    | nil => simp [isPre] at h
    | cons b bs =>
      simp only [isPre, Bool.and_eq_true, beq_iff_eq] at h
      intro c hc
      rcases List.mem_cons.mp hc with hc | hc
      · subst hc
        rw [h.1]
        exact List.mem_cons_self b bs
      · exact List.mem_cons_of_mem b (ih bs h.2 c hc)

theorem takeWhile_alnum_all (id : List Char) (h : ∀ c ∈ id, isLowerAlnum c = true) :
    id.takeWhile isLowerAlnum = id := by
  induction id with
  | nil => rfl
  | cons c cs ih =>
    rw [List.takeWhile_cons, h c (List.mem_cons_self c cs)]
    exact congrArg (c :: ·) (ih fun x hx => h x (List.mem_cons_of_mem c hx))

theorem takeWhile_alnum_append_stop (id : List Char) (d : Char) (ds : List Char)
    (h : ∀ c ∈ id, isLowerAlnum c = true) (hd : isLowerAlnum d = false) :
    (id ++ d :: ds).takeWhile isLowerAlnum = id := by
  induction id with
  | nil => simp [List.takeWhile_cons, hd]
  | cons c cs ih =>
    rw [List.cons_append, List.takeWhile_cons, h c (List.mem_cons_self c cs)]
    exact congrArg (c :: ·) (ih fun x hx => h x (List.mem_cons_of_mem c hx))

/-- If the matcher fails on every start position inside the concrete
region `xs`, the search continues into `ys`. -/
theorem searchWith_skip (f : List Char → Option (List Char)) (xs ys : List Char)
    (h : ∀ i < xs.length, f (xs.drop i ++ ys) = none) :
    searchWith f (xs ++ ys) = searchWith f ys := by
  induction xs with
  | nil => rfl
  | cons c cs ih =>
    have h0 : f (c :: (cs ++ ys)) = none := h 0 (Nat.succ_pos _)
    rw [List.cons_append, searchWith, h0]
    exact ih fun i hi => h (i + 1) (Nat.succ_lt_succ hi)

/-- If the matcher fails on every suffix of `l` (expressed through a
predicate preserved by taking tails), the search fails. -/
theorem searchWith_none (P : List Char → Prop) (f : List Char → Option (List Char))
    (hstep : ∀ c cs, P (c :: cs) → P cs)
    (hf : ∀ l, P l → f l = none) (l : List Char) (hP : P l) :
    searchWith f l = none := by
  induction l with
  | nil => exact hf [] hP
  | cons c cs ih =>
    rw [searchWith, hf (c :: cs) hP]
    exact ih (hstep c cs hP)

theorem p1At_none_of_no_dot (l : List Char) (h : ('.' : Char) ∉ l) : p1At l = none := by
  have hfalse : isPre "reddit.com/r/".data l = false := by
    cases hp : isPre "reddit.com/r/".data l
    · rfl
    · exact absurd (isPre_mem _ _ hp '.' (by decide)) h
  simp [p1At, hfalse]

theorem p2At_none_of_no_dot (l : List Char) (h : ('.' : Char) ∉ l) : p2At l = none := by
  have hfalse : isPre "redd.it/".data l = false := by
    cases hp : isPre "redd.it/".data l
    · rfl
    · exact absurd (isPre_mem _ _ hp '.' (by decide)) h
  simp [p2At, hfalse]

theorem p3At_none_of_no_slash (l : List Char) (h : ('/' : Char) ∉ l) : p3At l = none := by
  have hfalse : isPre "/comments/".data l = false := by
    cases hp : isPre "/comments/".data l
    · rfl
    · exact absurd (isPre_mem _ _ hp '/' (by decide)) h
  simp [p3At, hfalse]

theorem no_dot_of_alnum (l : List Char) (h : ∀ c ∈ l, isLowerAlnum c = true) :
    ('.' : Char) ∉ l := by
  intro hmem
  have := h '.' hmem
  simp [isLowerAlnum] at this

/-- Over a run of lowercase alphanumerics no pattern containing a dot
can match anywhere. -/
theorem searchWith_p1At_alnum (l : List Char) (h : ∀ c ∈ l, isLowerAlnum c = true) :
    searchWith p1At l = none :=
  searchWith_none (fun l => ∀ c ∈ l, isLowerAlnum c = true) p1At
    (fun c _ hP x hx => hP x (List.mem_cons_of_mem c hx))
    (fun l hP => p1At_none_of_no_dot l (no_dot_of_alnum l hP)) l h

/-- A successful match at the current position ends the search. -/
theorem searchWith_found (f : List Char → Option (List Char)) (l r : List Char)
    (h : f l = some r) : searchWith f l = some r := by
  cases l with
  | nil => rw [searchWith]; exact h
  | cons c cs => rw [searchWith, h]

/-- The subreddit-style permalink shape: the first pattern captures the
identifier segment after `/comments/`. -/
theorem extract_permalink_shape (id : List Char) (h1 : id ≠ [])
    (h2 : ∀ c ∈ id, isLowerAlnum c = true) :
    extract_post_id_from_url
      ("https://www.reddit.com/r/test/comments/" ++ String.mk id ++ "/titulo") =
      some (String.mk id) := by
  have hdata : ("https://www.reddit.com/r/test/comments/" ++ String.mk id ++ "/titulo").data
      = "https://www.".data ++ ("reddit.com/r/test/comments/".data ++ (id ++ "/titulo".data)) := by
    rw [strData_append, strData_append, data_mk,
      (by decide : "https://www.reddit.com/r/test/comments/".data
        = "https://www.".data ++ "reddit.com/r/test/comments/".data),
      List.append_assoc, List.append_assoc]
  have hcap : List.takeWhile isLowerAlnum (id ++ "/titulo".data) = id :=
    takeWhile_alnum_append_stop id '/' "titulo".data h2 (by decide)
  have hp1 : p1At ("reddit.com/r/test/comments/".data ++ (id ++ "/titulo".data)) = some id := by
    have hstep : p1At ("reddit.com/r/test/comments/".data ++ (id ++ "/titulo".data)) =
        if (List.takeWhile isLowerAlnum (id ++ "/titulo".data)).isEmpty then none
        else some (List.takeWhile isLowerAlnum (id ++ "/titulo".data)) := rfl
    rw [hstep, hcap]
    cases id with
    | nil => exact absurd rfl h1
    | cons c cs => rfl
  have hsearch : searchWith p1At
      ("https://www.reddit.com/r/test/comments/" ++ String.mk id ++ "/titulo").data = some id := by
    rw [hdata, searchWith_skip p1At "https://www.".data _
      (by
        intro i hi
        rw [(by decide : ("https://www.".data).length = 12)] at hi
        interval_cases i <;> rfl)]
    exact searchWith_found _ _ _ hp1
  rw [extract_post_id_from_url, hsearch]

/-- The short-link shape: pattern 1 matches nowhere (its dot never
lines up), and pattern 2 captures the trailing identifier. -/
theorem extract_shortlink_shape (id : List Char) (h1 : id ≠ [])
    (h2 : ∀ c ∈ id, isLowerAlnum c = true) :
    extract_post_id_from_url ("https://redd.it/" ++ String.mk id) = some (String.mk id) := by
  have hdataA : ("https://redd.it/" ++ String.mk id).data = "https://redd.it/".data ++ id := by
    rw [strData_append, data_mk]
  have hdataB : ("https://redd.it/" ++ String.mk id).data
      = "https://".data ++ ("redd.it/".data ++ id) := by
    rw [hdataA,
      (by decide : "https://redd.it/".data = "https://".data ++ "redd.it/".data),
      List.append_assoc]
  have hs1 : searchWith p1At ("https://redd.it/" ++ String.mk id).data = none := by
    rw [hdataA, searchWith_skip p1At "https://redd.it/".data id
      (by
        intro i hi
        rw [(by decide : ("https://redd.it/".data).length = 16)] at hi
        interval_cases i <;> rfl)]
    exact searchWith_p1At_alnum id h2
  have hp2 : p2At ("redd.it/".data ++ id) = some id := by
    have hstep : p2At ("redd.it/".data ++ id) =
        if (List.takeWhile isLowerAlnum id).isEmpty then none
        else some (List.takeWhile isLowerAlnum id) := rfl
    rw [hstep, takeWhile_alnum_all id h2]
    cases id with
    | nil => exact absurd rfl h1
    | cons c cs => rfl
  have hs2 : searchWith p2At ("https://redd.it/" ++ String.mk id).data = some id := by
    rw [hdataB, searchWith_skip p2At "https://".data _
      (by
        intro i hi
        rw [(by decide : ("https://".data).length = 8)] at hi
        interval_cases i <;> rfl)]
    exact searchWith_found _ _ _ hp2
  rw [extract_post_id_from_url, hs1, hs2]

/-- The bare comments-path shape: the first two patterns contain a dot
and the input has none, so pattern 3 captures the identifier. -/
theorem extract_bare_shape (id : List Char) (h1 : id ≠ [])
    (h2 : ∀ c ∈ id, isLowerAlnum c = true) :
    extract_post_id_from_url ("/comments/" ++ String.mk id) = some (String.mk id) := by
  have hdata : ("/comments/" ++ String.mk id).data = "/comments/".data ++ id := by
    rw [strData_append, data_mk]
  have hnodot : ('.' : Char) ∉ "/comments/".data ++ id := by
    intro hmem
    rcases List.mem_append.mp hmem with hmem | hmem
    · exact absurd hmem (by decide)
    · exact no_dot_of_alnum id h2 hmem
  have hs1 : searchWith p1At ("/comments/" ++ String.mk id).data = none := by
    rw [hdata]
    exact searchWith_none (fun l => ('.' : Char) ∉ l) p1At
      (fun c cs hP hm => hP (List.mem_cons_of_mem c hm))
      (fun l hP => p1At_none_of_no_dot l hP) _ hnodot
  have hs2 : searchWith p2At ("/comments/" ++ String.mk id).data = none := by
    rw [hdata]
    exact searchWith_none (fun l => ('.' : Char) ∉ l) p2At
      (fun c cs hP hm => hP (List.mem_cons_of_mem c hm))
      (fun l hP => p2At_none_of_no_dot l hP) _ hnodot
  have hp3 : p3At ("/comments/".data ++ id) = some id := by
    have hstep : p3At ("/comments/".data ++ id) =
        if (List.takeWhile isLowerAlnum id).isEmpty then none
        else some (List.takeWhile isLowerAlnum id) := rfl
    rw [hstep, takeWhile_alnum_all id h2]
    cases id with
    | nil => exact absurd rfl h1
    | cons c cs => rfl
  have hs3 : searchWith p3At ("/comments/" ++ String.mk id).data = some id := by
    rw [hdata]
    exact searchWith_found _ _ _ hp3
  rw [extract_post_id_from_url, hs1, hs2, hs3]

/-- Claim C5: for every lowercase-alphanumeric identifier, each of the
three supported URL shapes — subreddit-style permalink, short-link, and
bare comments-path — extracts exactly that identifier (the patterns are
applied in order and the first capture is returned), while an unrelated
string yields `None`. -/
theorem claim_C5_extract_id (id : List Char) (h1 : id ≠ [])
    (h2 : ∀ c ∈ id, isLowerAlnum c = true) :
    extract_post_id_from_url
        ("https://www.reddit.com/r/test/comments/" ++ String.mk id ++ "/titulo") =
        some (String.mk id) ∧
      extract_post_id_from_url ("https://redd.it/" ++ String.mk id) = some (String.mk id) ∧
      extract_post_id_from_url ("/comments/" ++ String.mk id) = some (String.mk id) ∧
      extract_post_id_from_url "https://example.org/page" = none :=
  ⟨extract_permalink_shape id h1 h2, extract_shortlink_shape id h1 h2,
   extract_bare_shape id h1 h2, by decide⟩

theorem claim_C5_witness :
    extract_post_id_from_url
        ("https://www.reddit.com/r/test/comments/" ++ String.mk "abc123".data ++ "/titulo") =
        some (String.mk "abc123".data) ∧
      extract_post_id_from_url ("https://redd.it/" ++ String.mk "abc123".data) =
        some (String.mk "abc123".data) ∧
      extract_post_id_from_url ("/comments/" ++ String.mk "abc123".data) =
        some (String.mk "abc123".data) ∧
      extract_post_id_from_url "https://example.org/page" = none :=
  claim_C5_extract_id "abc123".data (by decide) (by decide)
